import Mathlib

/-!
Verification of the resilient access layer of dida365-cli against its design
specification.  The definitions below are a shallow embedding of the three
core modules:

* `src/scripts/dida365/core/cache.ts`  (two-tier cache with single-flight
  fetch and stale-if-error fallback),
* `src/scripts/dida365/core/http.ts`   (retry/backoff transport), and
* the token helpers `normalizeToken` / `isTokenExpired`.

JavaScript values handled by the cache are modeled by the inductive `JVal`
(JSON values plus `undefined` and opaque error objects); timestamps and
durations are integer milliseconds; the file system is a per-key outcome
(`DiskFile`); promise settlements are explicit outcome parameters.
-/

set_option autoImplicit false

namespace Dida365

/-- Model of a JavaScript runtime value as the cache layer sees it:
JSON-representable values plus `undefined` (the JS `undefined`) and `errObj`, an
opaque non-JSON object such as an `Error` instance, identified by a tag.
`num` carries an integer, since every number the cache layer manipulates is an
integral count of milliseconds. -/
inductive JVal where
  | null
  | undefined
  | bool (b : Bool)
  | num (n : Int)
  | str (s : String)
  | arr (elems : List JVal)
  | obj (fields : List (String × JVal))
  | errObj (tag : Nat)

/-- Property access `v[f]` on a JS value: an object yields the field value
when the property is present and `undefined` otherwise; every other value the
cache code reads properties from yields `undefined`. -/
def JVal.get (v : JVal) (f : String) : JVal :=
  match v with
  | .obj fields =>
    match fields.lookup f with
    | some x => x
    | none => .undefined
  | _ => .undefined

/-- The JS `f in v` property-presence test, used on objects only. -/
def JVal.hasField (v : JVal) (f : String) : Bool :=
  match v with
  | .obj fields => (fields.lookup f).isSome
  | _ => false

/-- Mirrors `isCacheEntry` (cache.ts lines 12-21): the value must be a
non-null object whose `key` is a string, that has a `value` property, and
whose `cachedAt` and `expiresAt` are numbers.  Arrays and opaque objects pass
the `typeof`/null guard but fail every field check, so only `obj` can
succeed; for non-objects the guard itself fails, and here every property read
is `undefined`, giving the same verdict. -/
def isCacheEntry (v : JVal) : Bool :=
  (match v.get "key" with | .str _ => true | _ => false) &&
  v.hasField "value" &&
  (match v.get "cachedAt" with | .num _ => true | _ => false) &&
  (match v.get "expiresAt" with | .num _ => true | _ => false)

/-- Typed view of a cache entry (`CacheEntry` interface, cache.ts lines
5-10). -/
structure CacheEntry where
  key : String
  value : JVal
  cachedAt : Int
  expiresAt : Int

/-- Reading a parsed record into a typed entry; defined exactly when
`isCacheEntry` accepts the value. -/
def decodeEntry (v : JVal) : Option CacheEntry :=
  if isCacheEntry v then
    match v.get "key", v.get "cachedAt", v.get "expiresAt" with
    | .str k, .num c, .num e => some ⟨k, v.get "value", c, e⟩
    | _, _, _ => none
  else none

/-- Serialization of an entry as written by `Cache.set` via `JSON.stringify`
(cache.ts line 84), viewed as the parsed value a later read recovers. -/
def encodeEntry (e : CacheEntry) : JVal :=
  .obj [("key", .str e.key), ("value", e.value),
        ("cachedAt", .num e.cachedAt), ("expiresAt", .num e.expiresAt)]

/-- Outcome of reading the cache file for a key (cache.ts `readDisk`): the
file may be missing (ENOENT), unreadable (an I/O or permission error),
readable but not valid JSON, or readable with a parsed JSON value. -/
inductive DiskFile where
  | absent
  | ioError
  | notJson
  | json (v : JVal)

/-- Mirrors `Cache.readDisk` (cache.ts lines 34-50).  ENOENT maps to no
entry; any other read failure is rethrown, as is a `JSON.parse` failure (a
`SyntaxError` carries no `code` property, so the ENOENT test on line 45
rethrows it); a parsed value failing validation, or carrying a `key` field
different from the requested key, is no entry — the corruption and
hash-collision guard. -/
def readDisk (key : String) : DiskFile → Except Unit (Option CacheEntry)
  | .absent => .ok none
  | .ioError => .error ()
  | .notJson => .error ()
  | .json v =>
    match decodeEntry v with
    | none => .ok none
    | some e => if e.key = key then .ok (some e) else .ok none

/-- Cache-wide configuration (cache.ts line 27). -/
structure CacheOpts where
  ttlMs : Int
  staleIfErrorMs : Int

/-- State of one `Cache` instance: the in-memory map and the on-disk file for
each key.  The in-flight registry is modeled by the concurrent run below. -/
structure CacheState where
  mem : String → Option CacheEntry
  disk : String → DiskFile

/-- Where a `get` found its entry. -/
inductive Source where
  | memory
  | disk
deriving DecidableEq

/-- Return shape of `Cache.get` (cache.ts line 52); `source := none` models
the `null` source of a miss. -/
structure GetResult where
  entry : Option CacheEntry
  stale : Bool
  source : Option Source

/-- Mirrors `Cache.get` (cache.ts lines 52-72).  Memory is checked first; on
a miss the disk is consulted and a hit is promoted into memory; a disk read
failure of any kind is swallowed by the catch on line 67 and reported as a
miss.  Staleness is the strict comparison `now > expiresAt` from lines 56 and
64. -/
def Cache.get (s : CacheState) (now : Int) (key : String) : GetResult × CacheState :=
  match s.mem key with
  | some e => (⟨some e, decide (now > e.expiresAt), some .memory⟩, s)
  | none =>
    match readDisk key (s.disk key) with
    | .ok (some e) =>
      (⟨some e, decide (now > e.expiresAt), some .disk⟩,
        { s with mem := fun k => if k = key then some e else s.mem k })
    | .ok none => (⟨none, false, none⟩, s)
    | .error _ => (⟨none, false, none⟩, s)

/-- Entry built by `Cache.set` (cache.ts lines 76-81): `cachedAt` is the
current clock and `expiresAt = cachedAt + ttl`, the ttl defaulting to the
cache-wide `opts.ttlMs`. -/
def Cache.mkEntry (opts : CacheOpts) (now : Int) (key : String) (v : JVal)
    (ttlMs : Option Int) : CacheEntry :=
  ⟨key, v, now, now + ttlMs.getD opts.ttlMs⟩

/-- Disk half of `Cache.set` (line 84): serialize the entry to the key's
file. -/
def Cache.setDisk (s : CacheState) (e : CacheEntry) : CacheState :=
  { s with disk := fun k => if k = e.key then .json (encodeEntry e) else s.disk k }

/-- Memory half of `Cache.set` (line 85). -/
def Cache.setMem (s : CacheState) (e : CacheEntry) : CacheState :=
  { s with mem := fun k => if k = e.key then some e else s.mem k }

/-- Mirrors `Cache.set` (cache.ts lines 74-86): build the entry, write the
disk file first, then update memory. -/
def Cache.set (opts : CacheOpts) (s : CacheState) (now : Int) (key : String)
    (v : JVal) (ttlMs : Option Int) : CacheState :=
  Cache.setMem (Cache.setDisk s (Cache.mkEntry opts now key v ttlMs))
    (Cache.mkEntry opts now key v ttlMs)

/-- Return record of `Cache.fetch` (cache.ts line 92), with JS-valued fields:
`undefined` models an absent optional field (`cachedAt?`, `error?`). -/
structure FetchRes where
  value : JVal
  source : JVal
  stale : JVal
  cachedAt : JVal
  error : JVal

/-- Result for a fresh cache hit (cache.ts line 99). -/
def hitRes (e : CacheEntry) : FetchRes :=
  ⟨e.value, .str "cache", .bool false, .num e.cachedAt, .undefined⟩

/-- The stale-fallback record the in-flight promise resolves with when the
origin fetch fails inside the stale-if-error window (cache.ts line 117),
viewed as the JS value the promise carries. -/
def fallbackObj (e : CacheEntry) (err : JVal) : JVal :=
  .obj [("value", e.value), ("source", .str "cache"), ("stale", .bool true),
        ("cachedAt", .num e.cachedAt), ("error", err)]

/-- The shape test on cache.ts line 130: the resolved value is truthy, of
`typeof "object"`, has a `source` property, and that property equals
`"cache"`.  Only an `obj` can satisfy all four conjuncts: `null` fails
truthiness, primitives fail the `typeof` test, and arrays and opaque error
objects have no `source` property. -/
def looksLikeFallback (v : JVal) : Bool :=
  match v with
  | .obj fields =>
    match fields.lookup "source" with
    | some (.str s) => s == "cache"
    | _ => false
  | _ => false

/-- Reading a resolved value back as the `fetch` return record through the
cast on cache.ts line 131: the record's fields are simply the object's
properties, absent ones being `undefined`. -/
def castRes (v : JVal) : FetchRes :=
  ⟨v.get "value", v.get "source", v.get "stale", v.get "cachedAt", v.get "error"⟩

/-- Origin-tagged wrap of a resolved value (cache.ts line 134; also the
waiter return on line 105). -/
def originRes (v : JVal) : FetchRes :=
  ⟨v, .str "origin", .bool false, .undefined, .undefined⟩

/-- Cache.ts lines 128-134: the settled promise value is inspected; anything
shaped like the stale-fallback record is returned as-is through the cast,
everything else is wrapped as a fresh origin result. -/
def unwrapRes (v : JVal) : FetchRes :=
  if looksLikeFallback v then castRes v else originRes v

/-- Behavior of the caller-supplied `fetcher` for one invocation: it either
resolves with a value or rejects with an error (both arbitrary JS values). -/
inductive FetchOutcome where
  | ok (v : JVal)
  | fail (err : JVal)

/-- Cache.ts lines 108-134: run the origin fetch — the body of the in-flight
promise — and route its settlement through the unwrap on lines 128-134.
`entry` is the possibly-stale entry captured by the closure from the `get` on
line 97, `now` the clock sampled on line 95.  On success the value is
persisted with `set` (the real code samples the clock again inside `set`, at
most a few milliseconds later; the model reuses `now`).  On failure the stale
entry is returned when its expiry is within the window, otherwise the
original error is rethrown. -/
def Cache.runOrigin (opts : CacheOpts) (s : CacheState) (now : Int) (key : String)
    (ttlMs staleIfErrorMs : Int) (entry : Option CacheEntry) (outcome : FetchOutcome) :
    Except JVal FetchRes × CacheState :=
  match outcome with
  | .ok v => (.ok (unwrapRes v), Cache.set opts s now key v (some ttlMs))
  | .fail err =>
    match entry with
    | some e =>
      if now - e.expiresAt ≤ staleIfErrorMs then
        (.ok (unwrapRes (fallbackObj e err)), s)
      else (.error err, s)
    | none => (.error err, s)

/-- Mirrors `Cache.fetch` (cache.ts lines 88-135) for a caller that finds no
in-flight fetch registered for the key; the multi-caller in-flight protocol
is modeled separately by `runConcurrent`.  A fresh entry is returned at once
(line 99); otherwise the origin fetch runs with the captured entry. -/
def Cache.fetch (opts : CacheOpts) (s : CacheState) (now : Int) (key : String)
    (ttlMs staleIfErrorMs : Option Int) (outcome : FetchOutcome) :
    Except JVal FetchRes × CacheState :=
  match Cache.get s now key with
  | (g, s1) =>
    match g.entry, g.stale with
    | some e, false => (.ok (hitRes e), s1)
    | some e, true =>
      Cache.runOrigin opts s1 now key (ttlMs.getD opts.ttlMs)
        (staleIfErrorMs.getD opts.staleIfErrorMs) (some e) outcome
    | none, _ =>
      Cache.runOrigin opts s1 now key (ttlMs.getD opts.ttlMs)
        (staleIfErrorMs.getD opts.staleIfErrorMs) none outcome

/-!
Concurrent `fetch` protocol.  Node's scheduling is single-threaded and
cooperative: code between two `await` suspension points runs atomically.  In
`Cache.fetch` the in-flight lookup (line 102), the synchronous prefix of the
IIFE up to `await fetcher()` (line 110), and the registration (line 126) all
run inside one such turn, so no other caller can interleave between the
check and the registration: the first caller to reach the check becomes the
owner (and is the only one to invoke the fetcher), every later caller that
arrives before the promise settles becomes a waiter on the same promise.
`phase1` runs the callers' arrival turns in order, `settle` is the
settlement of the owner's promise (with the `finally` on line 122 clearing
the registry), and the return routing is `roleReturn`.
-/

/-- Role a caller ends up in during the arrival phase of concurrent `fetch`
calls on one key. -/
inductive Role where
  | hit (r : FetchRes)
  | owner
  | waiter

/-- Arrival turns of `n` concurrent callers, threading the cache state, the
in-flight flag for the key, and the entry captured by the owner's closure.
Each caller runs `get` (line 97); a fresh entry returns at once (line 99),
otherwise the caller either joins the registered promise (lines 102-106) or
registers it and becomes the owner (lines 108-126). -/
def Cache.phase1 (now : Int) (key : String) :
    Nat → CacheState → Bool → Option (Option CacheEntry) →
    CacheState × Bool × Option (Option CacheEntry) × List Role
  | 0, s, busy, ownerEntry => (s, busy, ownerEntry, [])
  | n + 1, s, busy, ownerEntry =>
    match Cache.get s now key with
    | (g, s1) =>
      match g.entry, g.stale with
      | some e, false =>
        match Cache.phase1 now key n s1 busy ownerEntry with
        | (s2, b2, oe2, roles) => (s2, b2, oe2, .hit (hitRes e) :: roles)
      | _, _ =>
        if busy then
          match Cache.phase1 now key n s1 busy ownerEntry with
          | (s2, b2, oe2, roles) => (s2, b2, oe2, .waiter :: roles)
        else
          match Cache.phase1 now key n s1 true (some g.entry) with
          | (s2, b2, oe2, roles) => (s2, b2, oe2, .owner :: roles)

/-- Settlement of the owner's in-flight promise (cache.ts lines 108-124): on
success persist and resolve with the fetched value; on failure resolve with
the stale-fallback record when the captured entry's expiry is within the
window, otherwise reject with the original error. -/
def Cache.settle (opts : CacheOpts) (s : CacheState) (now : Int) (key : String)
    (ttlMs staleIfErrorMs : Int) (ownerEntry : Option CacheEntry)
    (outcome : FetchOutcome) : Except JVal JVal × CacheState :=
  match outcome with
  | .ok v => (.ok v, Cache.set opts s now key v (some ttlMs))
  | .fail err =>
    match ownerEntry with
    | some e =>
      if now - e.expiresAt ≤ staleIfErrorMs then (.ok (fallbackObj e err), s)
      else (.error err, s)
    | none => (.error err, s)

/-- What the owner returns once its promise settles: the unwrap of cache.ts
lines 128-134, or the rethrown rejection. -/
def ownerReturn : Except JVal JVal → Except JVal FetchRes
  | .ok v => .ok (unwrapRes v)
  | .error e => .error e

/-- What a waiter returns (cache.ts lines 103-106): the shared promise's
resolution wrapped as a fresh origin value — without the owner's unwrap —
or the shared rejection. -/
def waiterReturn : Except JVal JVal → Except JVal FetchRes
  | .ok v => .ok (originRes v)
  | .error e => .error e

/-- Return of each caller as a function of its role and the settlement. -/
def roleReturn (settlement : Except JVal JVal) : Role → Except JVal FetchRes
  | .hit r => .ok r
  | .owner => ownerReturn settlement
  | .waiter => waiterReturn settlement

/-- Observable outcome of a concurrent run: the callers' returns in arrival
order, how many times the fetcher was invoked, the final cache state, and
whether an in-flight registration for the key survives the run. -/
structure ConcRun where
  results : List (Except JVal FetchRes)
  fetchCalls : Nat
  finalState : CacheState
  inFlightAfter : Bool

/-- Run of `n` concurrent `Cache.fetch` callers on one key, all arriving
before the origin fetch settles, starting with no registration for the key.
If an owner registered, its promise settles once and every caller observes
that settlement; the `finally` on line 122 then clears the registry.  If no
owner registered, every caller returned a fresh hit and the settlement
argument is never consulted (a dummy is passed). -/
def Cache.runConcurrent (opts : CacheOpts) (s : CacheState) (now : Int)
    (key : String) (ttlMs staleIfErrorMs : Option Int) (n : Nat)
    (outcome : FetchOutcome) : ConcRun :=
  match Cache.phase1 now key n s false none with
  | (s1, busy, ownerEntry, roles) =>
    match busy, ownerEntry with
    | true, some entryOpt =>
      match Cache.settle opts s1 now key (ttlMs.getD opts.ttlMs)
          (staleIfErrorMs.getD opts.staleIfErrorMs) entryOpt outcome with
      | (settlement, s2) =>
        ⟨roles.map (roleReturn settlement),
         roles.countP (fun r => match r with | .owner => true | _ => false),
         s2, false⟩
    | _, _ =>
      ⟨roles.map (roleReturn (.error .undefined)),
       roles.countP (fun r => match r with | .owner => true | _ => false),
       s1, busy⟩

/-!
Transport retry model (`fetchWithRetry` and `backoff`, http.ts lines
71-131).  Each attempt either yields a response with a status code or the
underlying `fetch` rejects (network failure, DNS error, timeout abort); the
environment is a function from the attempt index to that outcome.
-/

/-- Outcome of one underlying `fetch` attempt. -/
inductive AttemptOutcome where
  | respond (status : Nat)
  | reject (tag : Nat)
deriving DecidableEq

/-- Errors `fetchWithRetry` can raise: an `ApiError` carrying the status, or
a `NetworkError` wrapping the underlying cause (identified by its tag). -/
inductive FetchErr where
  | apiError (status : Nat)
  | networkError (tag : Nat)
deriving DecidableEq

/-- Observable outcome of a `fetchWithRetry` run: the result (`.ok i` is the
response of the succeeding attempt `i`), the total number of attempts made,
and the backoff delays slept between attempts, in order. -/
structure RetryRun where
  result : Except FetchErr Nat
  attempts : Nat
  delays : List Nat

/-- Mirrors `backoff` (http.ts lines 128-131): delay
`min(200 * 2 ^ attempt, 5000)` milliseconds. -/
def backoffDelay (attempt : Nat) : Nat := min (200 * 2 ^ attempt) 5000

/-- Mirrors the retry loop of `fetchWithRetry` (http.ts lines 76-106) from
attempt index `attempt` with `remaining` further attempts allowed (the
code's `attempt < maxRetries` test is `0 < remaining` here).  A 2xx response
returns it; a 4xx response raises `ApiError` at once (thrown on line 82,
rethrown by the catch on lines 94-96); any other non-ok status (3xx, or 5xx
with retries exhausted) raises `ApiError`, 5xx retrying after a backoff
while attempts remain; a rejected `fetch` retries the same way and, once
exhausted, is wrapped in a `NetworkError` (line 104). -/
def fetchLoop (att : Nat → AttemptOutcome) (attempt remaining : Nat) : RetryRun :=
  match att attempt with
  | .respond s =>
    if 200 ≤ s ∧ s ≤ 299 then ⟨.ok attempt, attempt + 1, []⟩
    else if 400 ≤ s ∧ s < 500 then ⟨.error (.apiError s), attempt + 1, []⟩
    else if h : 500 ≤ s ∧ 0 < remaining then
      let rest := fetchLoop att (attempt + 1) (remaining - 1)
      ⟨rest.result, rest.attempts, backoffDelay attempt :: rest.delays⟩
    else ⟨.error (.apiError s), attempt + 1, []⟩
  | .reject tag =>
    if h : 0 < remaining then
      let rest := fetchLoop att (attempt + 1) (remaining - 1)
      ⟨rest.result, rest.attempts, backoffDelay attempt :: rest.delays⟩
    else ⟨.error (.networkError tag), attempt + 1, []⟩
termination_by remaining
decreasing_by all_goals omega

/-- Mirrors `fetchWithRetry` (http.ts lines 71-115): the configured retry
count is capped at 5 (line 74) and the loop runs attempts `0..maxRetries`. -/
def fetchWithRetry (att : Nat → AttemptOutcome) (retries : Nat) : RetryRun :=
  fetchLoop att 0 (min retries 5)

/-!
Token model (`normalizeToken` and `isTokenExpired` in the token module).
JavaScript truthiness is what the code tests on the optional numeric fields:
an absent field and a zero value are both falsy.
-/

/-- The `OAuthToken` record. -/
structure OAuthToken where
  access_token : String
  refresh_token : Option String := none
  token_type : Option String := none
  scope : Option String := none
  expires_in : Option Int := none
  expires_at : Option Int := none
deriving DecidableEq

/-- JS truthiness of an optional numeric field: absent and `0` are falsy. -/
def numTruthy : Option Int → Bool
  | none => false
  | some n => n != 0

/-- Mirrors `normalizeToken`: when `expires_at` is falsy and `expires_in` is
truthy, derive `expires_at = now + expires_in * 1000`; otherwise the token is
returned unchanged (the code copies the record; field values are
identical). -/
def normalizeToken (now : Int) (t : OAuthToken) : OAuthToken :=
  if !numTruthy t.expires_at && numTruthy t.expires_in then
    { t with expires_at := some (now + t.expires_in.getD 0 * 1000) }
  else t

/-- Mirrors `isTokenExpired` (default skew 60 seconds): a token with falsy
`expires_at` never expires; otherwise expired exactly when
`now ≥ expires_at - skewSec * 1000`. -/
def isTokenExpired (now : Int) (t : OAuthToken) (skewSec : Int) : Bool :=
  if !numTruthy t.expires_at then false
  else decide (now ≥ t.expires_at.getD 0 - skewSec * 1000)

/-!
Concrete instances used by counterexample and witness theorems.
-/

/-- A small cache configuration: one-second TTL, half-second stale window. -/
def exOpts : CacheOpts := ⟨1000, 500⟩

/-- The empty cache state: nothing in memory, no file on disk. -/
def exEmptyState : CacheState := ⟨fun _ => none, fun _ => .absent⟩

/-- An entry for key `"k"` that expired at time 50. -/
def exEntry : CacheEntry := ⟨"k", .str "old", 0, 50⟩

/-- A state holding only the expired entry for `"k"` in memory. -/
def exStaleState : CacheState :=
  ⟨fun k => if k = "k" then some exEntry else none, fun _ => .absent⟩

/-- A success value crafted to collide with the stale-fallback shape test: a
plain object whose `source` property is the string `"cache"`. -/
def exAdversarial : JVal := .obj [("source", .str "cache")]

/-!
Helper lemmas about `Cache.get`.
-/

theorem get_mem_hit (s : CacheState) (now : Int) (key : String) (e : CacheEntry)
    (h : s.mem key = some e) :
    Cache.get s now key = (⟨some e, decide (now > e.expiresAt), some .memory⟩, s) := by
  simp [Cache.get, h]

theorem get_disk_hit (s : CacheState) (now : Int) (key : String) (e : CacheEntry)
    (hm : s.mem key = none) (hd : readDisk key (s.disk key) = .ok (some e)) :
    Cache.get s now key =
      (⟨some e, decide (now > e.expiresAt), some .disk⟩,
       { s with mem := fun k => if k = key then some e else s.mem k }) := by
  simp [Cache.get, hm, hd]

theorem get_miss (s : CacheState) (now : Int) (key : String)
    (hm : s.mem key = none) (hd : ∀ e, readDisk key (s.disk key) ≠ .ok (some e)) :
    Cache.get s now key = (⟨none, false, none⟩, s) := by
  cases hr : readDisk key (s.disk key) with
  | error u => simp [Cache.get, hm, hr]
  | ok o =>
    cases o with
    | none => simp [Cache.get, hm, hr]
    | some e => exact absurd hr (hd e)

/-- After one `get`, the produced state is a fixpoint: a second `get` at the
same clock returns the same entry and staleness and leaves the state
unchanged (a disk hit is promoted to memory on the first call). -/
theorem get_fix (s : CacheState) (now : Int) (key : String) :
    (Cache.get (Cache.get s now key).2 now key).2 = (Cache.get s now key).2 ∧
    (Cache.get (Cache.get s now key).2 now key).1.entry = (Cache.get s now key).1.entry ∧
    (Cache.get (Cache.get s now key).2 now key).1.stale = (Cache.get s now key).1.stale := by
  cases hm : s.mem key with
  | some e => simp [Cache.get, hm]
  | none =>
    cases hr : readDisk key (s.disk key) with
    | error u => simp [Cache.get, hm, hr]
    | ok o =>
      cases o with
      | none => simp [Cache.get, hm, hr]
      | some e => simp [Cache.get, hm, hr]

/-- C5.  Set/get round trip and entry invariant: `set` builds an entry with
`cachedAt = now` and `expiresAt = cachedAt + ttl` (the ttl defaulting to the
cache-wide TTL when omitted), writes the disk file first and memory second,
and an immediately following `get` (same clock, any nonnegative effective
ttl) finds that entry fresh with the stored value. -/
theorem cache_set_get_roundtrip (opts : CacheOpts) (s : CacheState) (now : Int)
    (key : String) (v : JVal) (ttl : Option Int) :
    (Cache.mkEntry opts now key v ttl).cachedAt = now ∧
    (Cache.mkEntry opts now key v ttl).expiresAt =
      (Cache.mkEntry opts now key v ttl).cachedAt + ttl.getD opts.ttlMs ∧
    (Cache.mkEntry opts now key v ttl).value = v ∧
    Cache.set opts s now key v ttl =
      Cache.setMem (Cache.setDisk s (Cache.mkEntry opts now key v ttl))
        (Cache.mkEntry opts now key v ttl) ∧
    (0 ≤ ttl.getD opts.ttlMs →
      Cache.get (Cache.set opts s now key v ttl) now key =
        (⟨some (Cache.mkEntry opts now key v ttl), false, some .memory⟩,
         Cache.set opts s now key v ttl)) := by
  refine ⟨rfl, rfl, rfl, rfl, fun h => ?_⟩
  have hmem : (Cache.set opts s now key v ttl).mem key =
      some (Cache.mkEntry opts now key v ttl) := by
    simp [Cache.set, Cache.setMem, Cache.setDisk, Cache.mkEntry]
  have := get_mem_hit (Cache.set opts s now key v ttl) now key
    (Cache.mkEntry opts now key v ttl) hmem
  rw [this]
  have hfresh : decide (now > (Cache.mkEntry opts now key v ttl).expiresAt) = false := by
    simp only [Cache.mkEntry, decide_eq_false_iff_not, not_lt]
    omega
  rw [hfresh]

/-- Witness for C5 at a concrete input. -/
theorem cache_set_get_roundtrip_witness :
    (0 : Int) ≤ (some (7 : Int)).getD exOpts.ttlMs ∧
    Cache.get (Cache.set exOpts exEmptyState 100 "k" (.str "v") (some 7)) 100 "k" =
      (⟨some (Cache.mkEntry exOpts 100 "k" (.str "v") (some 7)), false, some .memory⟩,
       Cache.set exOpts exEmptyState 100 "k" (.str "v") (some 7)) :=
  ⟨by decide,
   (cache_set_get_roundtrip exOpts exEmptyState 100 "k" (.str "v") (some 7)).2.2.2.2
     (by decide)⟩

/-- C6.  Corruption guard: with no memory entry, a disk record that fails
JSON parsing, fails the structural validation, or stores a key different
from the requested one makes `get` report a plain miss rather than raise. -/
theorem cache_get_corruption_guard (s : CacheState) (now : Int) (key : String)
    (hm : s.mem key = none)
    (hbad : s.disk key = .notJson ∨
      (∃ j, s.disk key = .json j ∧ isCacheEntry j = false) ∨
      (∃ j e, s.disk key = .json j ∧ decodeEntry j = some e ∧ e.key ≠ key)) :
    (Cache.get s now key).1 = ⟨none, false, none⟩ := by
  rcases hbad with hd | ⟨j, hd, hval⟩ | ⟨j, e, hd, hdec, hne⟩
  · simp [Cache.get, hm, hd, readDisk]
  · have hdec : decodeEntry j = none := by simp [decodeEntry, hval]
    simp [Cache.get, hm, hd, readDisk, hdec]
  · simp [Cache.get, hm, hd, readDisk, hdec, hne]

/-- Witness for C6: an unparsable disk file for the requested key. -/
theorem cache_get_corruption_guard_witness :
    (Cache.get ⟨fun _ => none, fun _ => .notJson⟩ 100 "k").1 = ⟨none, false, none⟩ :=
  cache_get_corruption_guard ⟨fun _ => none, fun _ => .notJson⟩ 100 "k" rfl
    (Or.inl rfl)

/-- C7.  Strict staleness and data survival: a `get` that finds an entry (in
memory, or on disk on a memory miss) reports it stale exactly when
`now > expiresAt` — an entry whose `expiresAt` equals `now` is still fresh —
and past expiry the original value is returned unchanged. -/
theorem cache_get_staleness (s : CacheState) (now : Int) (key : String) (e : CacheEntry) :
    (s.mem key = some e →
      Cache.get s now key = (⟨some e, decide (now > e.expiresAt), some .memory⟩, s)) ∧
    (s.mem key = none → readDisk key (s.disk key) = .ok (some e) →
      Cache.get s now key =
        (⟨some e, decide (now > e.expiresAt), some .disk⟩,
         { s with mem := fun k => if k = key then some e else s.mem k })) ∧
    (now = e.expiresAt → decide (now > e.expiresAt) = false) ∧
    (e.expiresAt < now → decide (now > e.expiresAt) = true) := by
  refine ⟨fun h => get_mem_hit s now key e h,
    fun hm hd => get_disk_hit s now key e hm hd, fun h => ?_, fun h => ?_⟩
  · simp [h]
  · simpa using h

/-- Witness for C7: an entry expiring exactly at the current clock is fresh,
and the same entry one tick later is stale with the value unchanged. -/
theorem cache_get_staleness_witness :
    Cache.get exStaleState 50 "k" =
      (⟨some exEntry, decide ((50 : Int) > exEntry.expiresAt), some .memory⟩,
       exStaleState) ∧
    decide ((50 : Int) > exEntry.expiresAt) = false ∧
    Cache.get exStaleState 51 "k" =
      (⟨some exEntry, decide ((51 : Int) > exEntry.expiresAt), some .memory⟩,
       exStaleState) ∧
    decide ((51 : Int) > exEntry.expiresAt) = true :=
  ⟨(cache_get_staleness exStaleState 50 "k" exEntry).1 rfl,
   (cache_get_staleness exStaleState 50 "k" exEntry).2.2.1 (by decide),
   (cache_get_staleness exStaleState 51 "k" exEntry).1 rfl,
   (cache_get_staleness exStaleState 51 "k" exEntry).2.2.2 (by decide)⟩

/-- C10.  Totality of `get` over disk failures: `get` is a total function of
the modeled disk outcome (the code swallows every disk read failure,
including I/O and permission errors, in the catch on line 67); with no
memory entry, an I/O error — or any read that does not produce a validated
entry — is reported as a plain miss, and an entry is produced only by a
memory hit or a successfully validated disk record. -/
theorem cache_get_total_on_disk_failure (s : CacheState) (now : Int) (key : String) :
    (s.mem key = none → s.disk key = .ioError →
      (Cache.get s now key).1 = ⟨none, false, none⟩) ∧
    (s.mem key = none → (∀ e, readDisk key (s.disk key) ≠ .ok (some e)) →
      (Cache.get s now key).1 = ⟨none, false, none⟩) ∧
    (∀ e, (Cache.get s now key).1.entry = some e →
      s.mem key = some e ∨ readDisk key (s.disk key) = .ok (some e)) := by
  refine ⟨fun hm hd => ?_, fun hm hd => by rw [get_miss s now key hm hd], fun e he => ?_⟩
  · have : ∀ e, readDisk key (s.disk key) ≠ .ok (some e) := by
      intro e h
      rw [hd] at h
      simp [readDisk] at h
    rw [get_miss s now key hm this]
  · cases hm : s.mem key with
    | some e0 =>
      rw [get_mem_hit s now key e0 hm] at he
      simp at he
      subst he
      exact Or.inl rfl
    | none =>
      cases hr : readDisk key (s.disk key) with
      | error u => rw [get_miss s now key hm (by simp [hr])] at he; simp at he
      | ok o =>
        cases o with
        | none => rw [get_miss s now key hm (by simp [hr])] at he; simp at he
        | some e1 =>
          rw [get_disk_hit s now key e1 hm hr] at he
          simp at he
          subst he
          exact Or.inr rfl

/-- Witness for C10: a permission-style I/O error on the disk file is a
miss. -/
theorem cache_get_total_on_disk_failure_witness :
    (Cache.get ⟨fun _ => none, fun _ => .ioError⟩ 100 "k").1 = ⟨none, false, none⟩ :=
  (cache_get_total_on_disk_failure ⟨fun _ => none, fun _ => .ioError⟩ 100 "k").1
    rfl rfl

/-- The unwrap on cache.ts lines 128-134 recognizes the stale-fallback record
and returns it unchanged: its fields are exactly the stale-tagged cached
value with the error attached. -/
theorem unwrap_fallback (e : CacheEntry) (err : JVal) :
    unwrapRes (fallbackObj e err) =
      ⟨e.value, .str "cache", .bool true, .num e.cachedAt, err⟩ := rfl

/-- C2.  Stale-if-error fallback: when the entry found by `get` is stale and
the origin fetch fails, the result is the old value tagged stale with the
error attached if the expiry age `now - expiresAt` is within the window, and
the original error otherwise; with no entry at all the error propagates
unchanged. -/
theorem cache_fetch_stale_if_error (opts : CacheOpts) (s : CacheState) (now : Int)
    (key : String) (ttl sw : Option Int) (err : JVal) (g : GetResult) (s1 : CacheState)
    (hget : Cache.get s now key = (g, s1)) :
    (∀ e, g.entry = some e → g.stale = true →
      ((now - e.expiresAt ≤ sw.getD opts.staleIfErrorMs →
        Cache.fetch opts s now key ttl sw (.fail err) =
          (.ok ⟨e.value, .str "cache", .bool true, .num e.cachedAt, err⟩, s1)) ∧
       (sw.getD opts.staleIfErrorMs < now - e.expiresAt →
        Cache.fetch opts s now key ttl sw (.fail err) = (.error err, s1)))) ∧
    (g.entry = none →
      Cache.fetch opts s now key ttl sw (.fail err) = (.error err, s1)) := by
  constructor
  · intro e he hs
    rcases g with ⟨ge, gs, gsrc⟩
    simp only at he hs
    subst he
    subst hs
    constructor
    · intro hin
      simp only [Cache.fetch, hget, Cache.runOrigin]
      rw [if_pos hin, unwrap_fallback]
    · intro hout
      simp only [Cache.fetch, hget, Cache.runOrigin]
      rw [if_neg (by omega)]
  · intro he
    rcases g with ⟨ge, gs, gsrc⟩
    simp only at he
    subst he
    cases gs <;> simp [Cache.fetch, hget, Cache.runOrigin]

/-- Witness for C2: with the entry for `"k"` expired by 50 ms, a failing
fetch inside the 500 ms window returns the stale value with the error
attached, and the same failing fetch 650 ms past expiry throws it. -/
theorem cache_fetch_stale_if_error_witness :
    Cache.fetch exOpts exStaleState 100 "k" none none (.fail (.str "boom")) =
      (.ok ⟨.str "old", .str "cache", .bool true, .num 0, .str "boom"⟩,
       exStaleState) ∧
    Cache.fetch exOpts exStaleState 700 "k" none none (.fail (.str "boom")) =
      (.error (.str "boom"), exStaleState) :=
  ⟨((cache_fetch_stale_if_error exOpts exStaleState 100 "k" none none (.str "boom")
      ⟨some exEntry, true, some .memory⟩ exStaleState rfl).1 exEntry rfl rfl).1
      (by decide),
   ((cache_fetch_stale_if_error exOpts exStaleState 700 "k" none none (.str "boom")
      ⟨some exEntry, true, some .memory⟩ exStaleState rfl).1 exEntry rfl rfl).2
      (by decide)⟩

/-- C4 (failing input).  A fetch whose fetcher succeeds with the object
`{source: "cache"}` trips the shape test on cache.ts line 130: the success
value itself is returned as the result record, so the caller sees
`source = "cache"` and an `undefined` value instead of
`{value: v, source: "origin", stale: false}`; the value is still persisted
via `set`. -/
theorem cache_fetch_success_shape_bug :
    Cache.fetch exOpts exEmptyState 100 "k" none none (.ok exAdversarial) =
      (.ok ⟨.undefined, .str "cache", .undefined, .undefined, .undefined⟩,
       Cache.set exOpts exEmptyState 100 "k" exAdversarial (some 1000)) ∧
    (⟨.undefined, .str "cache", .undefined, .undefined, .undefined⟩ : FetchRes).source ≠
      .str "origin" ∧
    (⟨.undefined, .str "cache", .undefined, .undefined, .undefined⟩ : FetchRes).value ≠
      exAdversarial ∧
    (Cache.fetch exOpts exEmptyState 100 "k" none none
        (.ok exAdversarial)).2.mem "k" = some ⟨"k", exAdversarial, 100, 1100⟩ := by
  refine ⟨rfl, ?_, ?_, rfl⟩
  · intro h
    simp at h
  · intro h
    simp [exAdversarial] at h

/-- For contrast with C4: any success value that is not shaped like the
stale-fallback record is returned with the documented
`{value, source: origin, stale: false}` shape and persisted via `set`. -/
theorem cache_fetch_success_shape_good (opts : CacheOpts) (s : CacheState)
    (now : Int) (key : String) (ttl sw : Option Int) (v : JVal) (g : GetResult)
    (s1 : CacheState) (hget : Cache.get s now key = (g, s1))
    (hnf : g.entry = none ∨ g.stale = true)
    (hshape : looksLikeFallback v = false) :
    Cache.fetch opts s now key ttl sw (.ok v) =
      (.ok ⟨v, .str "origin", .bool false, .undefined, .undefined⟩,
       Cache.set opts s1 now key v (some (ttl.getD opts.ttlMs))) := by
  rcases g with ⟨ge, gs, gsrc⟩
  have hun : unwrapRes v = ⟨v, .str "origin", .bool false, .undefined, .undefined⟩ := by
    simp [unwrapRes, hshape, originRes]
  cases ge with
  | none => simp [Cache.fetch, hget, Cache.runOrigin, hun]
  | some e =>
    cases gs with
    | true => simp [Cache.fetch, hget, Cache.runOrigin, hun]
    | false =>
      rcases hnf with h | h <;> simp only at h
      · exact absurd h (by simp)
      · exact absurd h (by simp)

/-- Witness for the contrast theorem: a plain string value fetched into an
empty cache. -/
theorem cache_fetch_success_shape_good_witness :
    Cache.fetch exOpts exEmptyState 100 "k" none none (.ok (.str "v")) =
      (.ok ⟨.str "v", .str "origin", .bool false, .undefined, .undefined⟩,
       Cache.set exOpts exEmptyState 100 "k" (.str "v") (some 1000)) :=
  cache_fetch_success_shape_good exOpts exEmptyState 100 "k" none none (.str "v")
    ⟨none, false, none⟩ exEmptyState rfl (Or.inl rfl) rfl

/-- Callers arriving after the owner registered all become waiters and leave
the state untouched, provided the state is a `get` fixpoint with no fresh
entry for the key. -/
theorem phase1_waiters (now : Int) (key : String) (oe : Option (Option CacheEntry)) :
    ∀ (m : Nat) (s : CacheState),
      (Cache.get s now key).2 = s →
      ((Cache.get s now key).1.entry = none ∨ (Cache.get s now key).1.stale = true) →
      Cache.phase1 now key m s true oe = (s, true, oe, List.replicate m .waiter) := by
  intro m
  induction m with
  | zero =>
    intro s hfix hnf
    simp [Cache.phase1]
  | succ m ih =>
    intro s hfix hnf
    have hrec := ih s hfix hnf
    rcases hget : Cache.get s now key with ⟨g, s1⟩
    have hs1 : s1 = s := by rw [hget] at hfix; exact hfix
    subst hs1
    rw [hget] at hnf
    rcases g with ⟨ge, gs, gsrc⟩
    simp only [Cache.phase1, hget]
    cases ge with
    | none => simp [hrec, List.replicate_succ]
    | some e =>
      cases gs with
      | false =>
        rcases hnf with h | h <;> simp only at h
        · exact absurd h (by simp)
        · exact absurd h (by simp)
      | true => simp [hrec, List.replicate_succ]

/-- When the first caller finds no fresh entry, it registers as the owner;
the other `m` callers become waiters on its promise. -/
theorem phase1_owner (now : Int) (key : String) (m : Nat) (s s1 : CacheState)
    (g : GetResult) (hget : Cache.get s now key = (g, s1))
    (hnf : g.entry = none ∨ g.stale = true) :
    Cache.phase1 now key (m + 1) s false none =
      (s1, true, some g.entry, .owner :: List.replicate m .waiter) := by
  have hfix := get_fix s now key
  rw [hget] at hfix
  dsimp only at hfix
  obtain ⟨hf1, hf2, hf3⟩ := hfix
  have hnf1 : (Cache.get s1 now key).1.entry = none ∨
      (Cache.get s1 now key).1.stale = true := by
    rw [hf2, hf3]; exact hnf
  have hw := phase1_waiters now key (some g.entry) m s1 hf1 hnf1
  simp only [Cache.phase1, hget]
  rcases g with ⟨ge, gs, gsrc⟩
  cases ge with
  | none => simp [hw]
  | some e =>
    cases gs with
    | true => simp [hw]
    | false =>
      rcases hnf with h | h <;> simp only at h
      · exact absurd h (by simp)
      · exact absurd h (by simp)

/-- The owner role is counted once in `owner :: replicate m waiter`. -/
theorem countP_owner_roles (m : Nat) :
    (Role.owner :: List.replicate m Role.waiter).countP
      (fun r => match r with | .owner => true | _ => false) = 1 := by
  induction m with
  | zero => rfl
  | succ m ih => simp [List.replicate_succ, List.countP_cons] at ih ⊢

/-- Single-flight protocol of `Cache.fetch`: when `n ≥ 1` callers run
concurrently on a key with no fresh entry, the fetcher is invoked exactly
once, the in-flight registration is cleared when it settles, and the run
returns the owner's unwrapped settlement followed by `n - 1` identical
waiter returns of the same settlement. -/
theorem runConcurrent_spec (opts : CacheOpts) (s s1 : CacheState) (g : GetResult)
    (now : Int) (key : String) (ttl sw : Option Int) (n : Nat)
    (outcome : FetchOutcome) (hget : Cache.get s now key = (g, s1))
    (hnf : g.entry = none ∨ g.stale = true) (hn : 1 ≤ n) :
    Cache.runConcurrent opts s now key ttl sw n outcome =
      ⟨ownerReturn (Cache.settle opts s1 now key (ttl.getD opts.ttlMs)
          (sw.getD opts.staleIfErrorMs) g.entry outcome).1 ::
        List.replicate (n - 1)
          (waiterReturn (Cache.settle opts s1 now key (ttl.getD opts.ttlMs)
            (sw.getD opts.staleIfErrorMs) g.entry outcome).1),
       1,
       (Cache.settle opts s1 now key (ttl.getD opts.ttlMs)
         (sw.getD opts.staleIfErrorMs) g.entry outcome).2,
       false⟩ := by
  obtain ⟨m, rfl⟩ : ∃ m, n = m + 1 := ⟨n - 1, by omega⟩
  have hp := phase1_owner now key m s s1 g hget hnf
  rcases hs : Cache.settle opts s1 now key (ttl.getD opts.ttlMs)
      (sw.getD opts.staleIfErrorMs) g.entry outcome with ⟨settlement, s2⟩
  simp only [Cache.runConcurrent, hp, hs, List.map_cons, List.map_replicate,
    countP_owner_roles, roleReturn, Nat.add_sub_cancel]

/-- C1 (failing input).  Two concurrent fetches on a key whose entry expired
50 ms ago (window 500 ms) with a rejecting fetcher: the fetcher runs once and
the registry is cleared, but the two callers do not observe the same result —
the initiating caller gets the stale-tagged cached value with the error
attached, while the waiting caller (cache.ts line 104 performs no unwrap)
gets the internal fallback record wrapped as a fresh `source: "origin"`
value. -/
theorem cache_fetch_single_flight_bug :
    (Cache.runConcurrent exOpts exStaleState 100 "k" none none 2
      (.fail (.str "boom"))).fetchCalls = 1 ∧
    (Cache.runConcurrent exOpts exStaleState 100 "k" none none 2
      (.fail (.str "boom"))).inFlightAfter = false ∧
    (Cache.runConcurrent exOpts exStaleState 100 "k" none none 2
      (.fail (.str "boom"))).results =
      [.ok ⟨.str "old", .str "cache", .bool true, .num 0, .str "boom"⟩,
       .ok ⟨fallbackObj exEntry (.str "boom"), .str "origin", .bool false,
            .undefined, .undefined⟩] ∧
    (⟨.str "old", .str "cache", .bool true, .num 0, .str "boom"⟩ : FetchRes) ≠
      ⟨fallbackObj exEntry (.str "boom"), .str "origin", .bool false,
       .undefined, .undefined⟩ := by
  refine ⟨rfl, rfl, rfl, ?_⟩
  intro h
  simp [fallbackObj] at h

/-- Retry loop, success case: `r` leading 500 responses followed by a 2xx
response within the allowed attempts return the success after `r + 1` total
attempts, with one backoff per retried attempt. -/
theorem fetchLoop_5xx_then_ok (att : Nat → AttemptOutcome) (s2 : Nat)
    (h2 : 200 ≤ s2 ∧ s2 ≤ 299) :
    ∀ (r attempt remaining : Nat), r ≤ remaining →
      (∀ i, i < r → att (attempt + i) = .respond 500) →
      att (attempt + r) = .respond s2 →
      fetchLoop att attempt remaining =
        ⟨.ok (attempt + r), attempt + r + 1,
         (List.range' attempt r).map backoffDelay⟩ := by
  intro r
  induction r with
  | zero =>
    intro attempt remaining hr h500 hok
    rw [Nat.add_zero] at hok
    rw [fetchLoop, hok]
    dsimp only
    rw [if_pos h2]
    simp [List.range'_zero]
  | succ r ih =>
    intro attempt remaining hr h500 hok
    have h0 : att attempt = .respond 500 := by
      have := h500 0 (Nat.succ_pos r)
      rwa [Nat.add_zero] at this
    rw [fetchLoop, h0]
    dsimp only
    rw [if_neg (by omega), if_neg (by omega), dif_pos ⟨by omega, by omega⟩]
    have hrec := ih (attempt + 1) (remaining - 1) (by omega)
      (fun i hi => by
        have := h500 (i + 1) (by omega)
        rwa [show attempt + (i + 1) = attempt + 1 + i by omega] at this)
      (by rwa [show attempt + (r + 1) = attempt + 1 + r by omega] at hok)
    simp only [hrec, List.range'_succ, List.map_cons, RetryRun.mk.injEq,
      Except.ok.injEq]
    refine ⟨by omega, by omega, trivial⟩

/-- Retry loop, server-error exhaustion: all allowed attempts yield 5xx
responses, so the loop raises the last `ApiError` after `remaining + 1`
attempts with one backoff per retried attempt. -/
theorem fetchLoop_5xx_exhaust (att : Nat → AttemptOutcome) (st : Nat → Nat)
    (h5 : ∀ i, 500 ≤ st i) :
    ∀ (remaining attempt : Nat),
      (∀ i, i ≤ remaining → att (attempt + i) = .respond (st (attempt + i))) →
      fetchLoop att attempt remaining =
        ⟨.error (.apiError (st (attempt + remaining))), attempt + remaining + 1,
         (List.range' attempt remaining).map backoffDelay⟩ := by
  intro remaining
  induction remaining with
  | zero =>
    intro attempt hall
    have h0 := hall 0 (Nat.le_refl 0)
    rw [Nat.add_zero] at h0
    have h5a := h5 attempt
    rw [fetchLoop, h0]
    dsimp only
    rw [if_neg (by omega), if_neg (by omega), dif_neg (by omega)]
    simp [List.range'_zero]
  | succ rem ih =>
    intro attempt hall
    have h0 := hall 0 (Nat.zero_le _)
    rw [Nat.add_zero] at h0
    have h5a := h5 attempt
    rw [fetchLoop, h0]
    dsimp only
    rw [if_neg (by omega), if_neg (by omega), dif_pos ⟨h5a, by omega⟩]
    have hrec := ih (attempt + 1) (fun i hi => by
      have := hall (i + 1) (by omega)
      rwa [show attempt + (i + 1) = attempt + 1 + i by omega] at this)
    simp only [Nat.add_sub_cancel, hrec, List.range'_succ, List.map_cons,
      RetryRun.mk.injEq, Except.error.injEq, FetchErr.apiError.injEq]
    refine ⟨by rw [show attempt + 1 + rem = attempt + (rem + 1) by omega],
      by omega, trivial⟩

/-- Retry loop, network-failure exhaustion: all allowed attempts reject, so
the loop raises a `NetworkError` wrapping the last cause after
`remaining + 1` attempts with one backoff per retried attempt. -/
theorem fetchLoop_reject_exhaust (att : Nat → AttemptOutcome) (tg : Nat → Nat) :
    ∀ (remaining attempt : Nat),
      (∀ i, i ≤ remaining → att (attempt + i) = .reject (tg (attempt + i))) →
      fetchLoop att attempt remaining =
        ⟨.error (.networkError (tg (attempt + remaining))),
         attempt + remaining + 1,
         (List.range' attempt remaining).map backoffDelay⟩ := by
  intro remaining
  induction remaining with
  | zero =>
    intro attempt hall
    have h0 := hall 0 (Nat.le_refl 0)
    rw [Nat.add_zero] at h0
    rw [fetchLoop, h0]
    dsimp only
    rw [dif_neg (by omega)]
    simp [List.range'_zero]
  | succ rem ih =>
    intro attempt hall
    have h0 := hall 0 (Nat.zero_le _)
    rw [Nat.add_zero] at h0
    rw [fetchLoop, h0]
    dsimp only
    rw [dif_pos (by omega)]
    have hrec := ih (attempt + 1) (fun i hi => by
      have := hall (i + 1) (by omega)
      rwa [show attempt + (i + 1) = attempt + 1 + i by omega] at this)
    simp only [Nat.add_sub_cancel, hrec, List.range'_succ, List.map_cons,
      RetryRun.mk.injEq, Except.error.injEq, FetchErr.networkError.injEq]
    refine ⟨by rw [show attempt + 1 + rem = attempt + (rem + 1) by omega],
      by omega, trivial⟩

/-- C3.  Transport retry policy: a 4xx response is raised immediately as
`ApiError` after exactly one attempt; a run of 500s followed by a 2xx within
`min(retries, 5)` additional attempts succeeds with `r + 1` total attempts
and backoffs `min(200 * 2 ^ i, 5000)`; exhausting all `min(retries, 5) + 1`
attempts on 5xx responses raises the last `ApiError`, and on rejected
attempts raises a `NetworkError` wrapping the last cause. -/
theorem transport_retry_policy (att : Nat → AttemptOutcome) (retries : Nat) :
    (∀ s, att 0 = .respond s → 400 ≤ s → s < 500 →
      fetchWithRetry att retries = ⟨.error (.apiError s), 1, []⟩) ∧
    (∀ r s2, r ≤ min retries 5 → 200 ≤ s2 → s2 ≤ 299 →
      (∀ i, i < r → att i = .respond 500) → att r = .respond s2 →
      fetchWithRetry att retries =
        ⟨.ok r, r + 1, (List.range r).map backoffDelay⟩) ∧
    (∀ st : Nat → Nat, (∀ i, 500 ≤ st i) →
      (∀ i, i ≤ min retries 5 → att i = .respond (st i)) →
      fetchWithRetry att retries =
        ⟨.error (.apiError (st (min retries 5))), min retries 5 + 1,
         (List.range (min retries 5)).map backoffDelay⟩) ∧
    (∀ tg : Nat → Nat, (∀ i, i ≤ min retries 5 → att i = .reject (tg i)) →
      fetchWithRetry att retries =
        ⟨.error (.networkError (tg (min retries 5))), min retries 5 + 1,
         (List.range (min retries 5)).map backoffDelay⟩) ∧
    (∀ i, backoffDelay i = min (200 * 2 ^ i) 5000) := by
  refine ⟨fun s h0 h4a h4b => ?_, fun r s2 hr h2a h2b h500 hok => ?_,
    fun st h5 hall => ?_, fun tg hall => ?_, fun i => rfl⟩
  · unfold fetchWithRetry
    rw [fetchLoop, h0]
    dsimp only
    rw [if_neg (by omega), if_pos ⟨h4a, h4b⟩]
  · have := fetchLoop_5xx_then_ok att s2 ⟨h2a, h2b⟩ r 0 (min retries 5) hr
      (fun i hi => by rw [Nat.zero_add]; exact h500 i hi)
      (by rw [Nat.zero_add]; exact hok)
    rw [Nat.zero_add] at this
    unfold fetchWithRetry
    rw [this, List.range_eq_range']
  · have := fetchLoop_5xx_exhaust att st h5 (min retries 5) 0
      (fun i hi => by rw [Nat.zero_add]; exact hall i hi)
    rw [Nat.zero_add] at this
    unfold fetchWithRetry
    rw [this, List.range_eq_range']
  · have := fetchLoop_reject_exhaust att tg (min retries 5) 0
      (fun i hi => by rw [Nat.zero_add]; exact hall i hi)
    rw [Nat.zero_add] at this
    unfold fetchWithRetry
    rw [this, List.range_eq_range']

/-- Witness for C3: a 404 is terminal after one attempt; 500-500-200 with 3
configured retries succeeds on the third attempt with delays 200 and 400 ms;
ten configured retries are capped at 5, so six 503s exhaust after six
attempts with the full delay schedule; a single configured retry of a
rejecting fetch raises a wrapped `NetworkError` after two attempts. -/
theorem transport_retry_policy_witness :
    fetchWithRetry (fun _ => .respond 404) 3 = ⟨.error (.apiError 404), 1, []⟩ ∧
    fetchWithRetry (fun i => if i < 2 then .respond 500 else .respond 200) 3 =
      ⟨.ok 2, 3, [200, 400]⟩ ∧
    fetchWithRetry (fun _ => .respond 503) 10 =
      ⟨.error (.apiError 503), 6, [200, 400, 800, 1600, 3200]⟩ ∧
    fetchWithRetry (fun _ => .reject 7) 1 =
      ⟨.error (.networkError 7), 2, [200]⟩ :=
  ⟨(transport_retry_policy (fun _ => .respond 404) 3).1 404 rfl (by decide)
      (by decide),
   by
    have := (transport_retry_policy
        (fun i => if i < 2 then .respond 500 else .respond 200) 3).2.1 2 200
      (by decide) (by decide) (by decide)
      (fun i hi => by
        have h01 : i = 0 ∨ i = 1 := by omega
        rcases h01 with rfl | rfl <;> rfl)
      rfl
    rw [this]
    rfl,
   by
    have := (transport_retry_policy (fun _ => .respond 503) 10).2.2.1
      (fun _ => 503) (fun i => (by decide : (500 : Nat) ≤ 503))
      (fun i hi => rfl)
    rw [this]
    rfl,
   by
    have := (transport_retry_policy (fun _ => .reject 7) 1).2.2.2.1
      (fun _ => 7) (fun i hi => rfl)
    rw [this]
    rfl⟩

/-- C8 (counterexample).  The claim says a credential that already has
`expires_at` keeps it unchanged; the code tests JS truthiness, so a present
`expires_at = 0` is treated as absent and a fresh expiry is synthesized. -/
theorem token_normalize_counterexample :
    (⟨"a", none, none, none, some 3600, some 0⟩ : OAuthToken).expires_at =
      some 0 ∧
    normalizeToken 1000 ⟨"a", none, none, none, some 3600, some 0⟩ =
      ⟨"a", none, none, none, some 3600, some 3601000⟩ ∧
    (some (3601000 : Int)) ≠ some 0 := by decide

/-- C8 (amended).  `normalizeToken` derives
`expires_at = now + expires_in * 1000` exactly when `expires_at` is absent
or zero and `expires_in` is present and nonzero; a zero or absent
`expires_in` synthesizes nothing; a credential with a nonzero `expires_at`
keeps it unchanged. -/
theorem token_normalize_amended (now : Int) (t : OAuthToken) :
    ((t.expires_at = none ∨ t.expires_at = some 0) →
      ∀ k, t.expires_in = some k → k ≠ 0 →
        normalizeToken now t = { t with expires_at := some (now + k * 1000) }) ∧
    ((t.expires_in = none ∨ t.expires_in = some 0) →
      normalizeToken now t = t) ∧
    (∀ x, t.expires_at = some x → x ≠ 0 → normalizeToken now t = t) := by
  refine ⟨fun hat k hin hk => ?_, fun hin => ?_, fun x hat hx => ?_⟩
  · have hfalsy : numTruthy t.expires_at = false := by
      rcases hat with h | h <;> simp [numTruthy, h]
    have htruthy : numTruthy t.expires_in = true := by
      simp [numTruthy, hin, hk]
    rw [normalizeToken, if_pos (by rw [hfalsy, htruthy]; rfl), hin]
    rfl
  · have hfalsy : numTruthy t.expires_in = false := by
      rcases hin with h | h <;> simp [numTruthy, h]
    rw [normalizeToken, if_neg (by rw [hfalsy]; simp)]
  · have htruthy : numTruthy t.expires_at = true := by
      simp [numTruthy, hat, hx]
    rw [normalizeToken, if_neg (by rw [htruthy]; simp)]

/-- Witness for C8: deriving an expiry from `expires_in = 3600`, keeping a
nonzero `expires_at`, and leaving `expires_in = 0` alone. -/
theorem token_normalize_amended_witness :
    normalizeToken 1000 ⟨"a", none, none, none, some 3600, none⟩ =
      ⟨"a", none, none, none, some 3600, some 3601000⟩ ∧
    normalizeToken 1000 ⟨"a", none, none, none, some 0, none⟩ =
      ⟨"a", none, none, none, some 0, none⟩ ∧
    normalizeToken 1000 ⟨"a", none, none, none, some 3600, some 77⟩ =
      ⟨"a", none, none, none, some 3600, some 77⟩ :=
  ⟨(token_normalize_amended 1000 ⟨"a", none, none, none, some 3600, none⟩).1
      (Or.inl rfl) 3600 rfl (by decide),
   (token_normalize_amended 1000 ⟨"a", none, none, none, some 0, none⟩).2.1
      (Or.inr rfl),
   (token_normalize_amended 1000 ⟨"a", none, none, none, some 3600,
      some 77⟩).2.2 77 rfl (by decide)⟩

/-- C9 (counterexample).  The claim says a credential with an `expires_at`
is expired exactly when `now ≥ expires_at - skew * 1000`; for
`expires_at = 0` that formula is satisfied, yet the code's truthiness test
treats the credential as never expiring and returns `false`. -/
theorem token_expiry_counterexample :
    (⟨"a", none, none, none, none, some 0⟩ : OAuthToken).expires_at = some 0 ∧
    isTokenExpired 1000000 ⟨"a", none, none, none, none, some 0⟩ 60 = false ∧
    ((1000000 : Int) ≥ 0 - 60 * 1000) := by decide

/-- C9 (amended).  `isTokenExpired` returns `false` when `expires_at` is
absent or zero; otherwise it returns `now ≥ expires_at - skew * 1000`; in
particular a credential with 30 seconds remaining is expired at skew 60 and
valid at skew 0. -/
theorem token_expiry_amended (now : Int) (t : OAuthToken) (skew : Int) :
    ((t.expires_at = none ∨ t.expires_at = some 0) →
      isTokenExpired now t skew = false) ∧
    (∀ x, t.expires_at = some x → x ≠ 0 →
      isTokenExpired now t skew = decide (now ≥ x - skew * 1000)) ∧
    (t.expires_at = some (now + 30000) → now + 30000 ≠ 0 →
      isTokenExpired now t 60 = true ∧ isTokenExpired now t 0 = false) := by
  refine ⟨fun hat => ?_, fun x hat hx => ?_, fun hat hx => ?_⟩
  · have hfalsy : numTruthy t.expires_at = false := by
      rcases hat with h | h <;> simp [numTruthy, h]
    rw [isTokenExpired, if_pos (by rw [hfalsy]; rfl)]
  · have htruthy : numTruthy t.expires_at = true := by
      simp [numTruthy, hat, hx]
    rw [isTokenExpired, if_neg (by rw [htruthy]; simp), hat]
    rfl
  · have htruthy : numTruthy t.expires_at = true := by
      simp [numTruthy, hat, hx]
    constructor
    · rw [isTokenExpired, if_neg (by rw [htruthy]; simp), hat]
      simp only [Option.getD_some, decide_eq_true_eq]
      omega
    · rw [isTokenExpired, if_neg (by rw [htruthy]; simp), hat]
      simp only [Option.getD_some, decide_eq_false_iff_not]
      omega

/-- Witness for C9: a credential expiring 30 seconds from `now = 10 ^ 6` is
expired at skew 60 and valid at skew 0, and a credential with no
`expires_at` never expires. -/
theorem token_expiry_amended_witness :
    isTokenExpired 1000000 ⟨"a", none, none, none, none, some 1030000⟩ 60 =
      true ∧
    isTokenExpired 1000000 ⟨"a", none, none, none, none, some 1030000⟩ 0 =
      false ∧
    isTokenExpired 1000000 ⟨"a", none, none, none, none, none⟩ 60 = false :=
  ⟨((token_expiry_amended 1000000
      ⟨"a", none, none, none, none, some 1030000⟩ 60).2.2 rfl (by decide)).1,
   ((token_expiry_amended 1000000
      ⟨"a", none, none, none, none, some 1030000⟩ 0).2.2 rfl (by decide)).2,
   (token_expiry_amended 1000000 ⟨"a", none, none, none, none, none⟩ 60).1
      (Or.inl rfl)⟩

end Dida365
